import Mathlib

/-!
Verification development for the helpscout-cli repository.

The definitions below are a shallow embedding of the request/authentication
layer (`src/lib/api-client.ts`), the error normalizer (`src/lib/errors.ts`),
the conversation summarizer (`src/commands/conversations.ts`) and the
pagination walker of the Help Scout CLI.  Strings are modelled as Lean
strings / `List Char`; JavaScript truthiness of optional strings, numbers
and arrays is modelled explicitly; network effects are modelled by passing
an explicit description of the responses the remote endpoints would give
and returning, next to the result, the list of network calls performed.
-/

namespace Helpscout

/-! ## Character classes used by the redaction regexes in errors.ts

The four sensitive patterns of `sanitizeErrorMessage` are
  /Bearer\s+[\w\-._~+\/]+=*\/gi
  /token[=:]\s*[\w\-._~+\/]+=*\/gi
  /client[_-]?secret[=:]\s*[\w\-._~+\/]+=*\/gi
  /authorization:\s*bearer\s+[\w\-._~+\/]+=*\/gi
Each is a sequence of case-insensitive literals, single-character classes
and greedy repetitions of character classes.  Adjacent repetition classes
of each pattern are disjoint (whitespace is never a word/token character,
and the token class does not contain the equals sign), and the literal
that follows the optional `[_-]?` cannot start with `_` or `-`, so greedy
matching without backtracking computes exactly the JavaScript regex match;
the matchers below are therefore written greedily. -/

/-- JavaScript word character `\w` = `[A-Za-z0-9_]`. -/
def jsWordChar (c : Char) : Bool :=
  (decide ('a' ≤ c) && decide (c ≤ 'z')) ||
  (decide ('A' ≤ c) && decide (c ≤ 'Z')) ||
  (decide ('0' ≤ c) && decide (c ≤ '9')) ||
  decide (c = '_')

/-- The token character class `[\w\-._~+/]` used by all four patterns. -/
def tokenChar (c : Char) : Bool :=
  jsWordChar c || decide (c = '-') || decide (c = '.') || decide (c = '_') ||
  decide (c = '~') || decide (c = '+') || decide (c = '/')

/-- JavaScript whitespace `\s` (ASCII part plus NBSP, BOM and the Unicode
space separators recognised by the ECMAScript spec). -/
def jsSpace (c : Char) : Bool :=
  decide (c = ' ') || decide (c = '\t') || decide (c = '\n') || decide (c = '\r') ||
  decide (c.toNat = 11) || decide (c.toNat = 12) || decide (c.toNat = 0xa0) ||
  decide (c.toNat = 0x1680) ||
  (decide (0x2000 ≤ c.toNat) && decide (c.toNat ≤ 0x200a)) ||
  decide (c.toNat = 0x2028) || decide (c.toNat = 0x2029) || decide (c.toNat = 0x202f) ||
  decide (c.toNat = 0x205f) || decide (c.toNat = 0x3000) || decide (c.toNat = 0xfeff)

/-- ASCII lower-casing, as performed by the `i` regex flag on the ASCII
literals of the four patterns. -/
def lowerChar (c : Char) : Char :=
  if decide ('A' ≤ c) && decide (c ≤ 'Z') then Char.ofNat (c.toNat + 32) else c

/-- Number of leading characters of `cs` satisfying `p`. -/
def countLeading (p : Char → Bool) : List Char → Nat
  | [] => 0
  | c :: cs => if p c then countLeading p cs + 1 else 0

/-- Case-insensitive literal match: `l` is a lowercase literal; on success
return the remainder of `cs` after the literal. -/
def litCI : List Char → List Char → Option (List Char)
  | [], cs => some cs
  | _ :: _, [] => none
  | a :: l, c :: cs => if lowerChar c = a then litCI l cs else none

/-- Greedy suffix `[\w\-._~+/]+=*` shared by all four patterns: at least one
token character, then any number of equals signs.  Returns the remainder. -/
def tokenTail (cs : List Char) : Option (List Char) :=
  let k := countLeading tokenChar cs
  if k = 0 then none
  else
    let r := cs.drop k
    some (r.drop (countLeading (fun c => decide (c = '=')) r))

/-- Matcher for `/Bearer\s+[\w\-._~+\/]+=*\/gi` at the head of `cs`. -/
def matchBearer (cs : List Char) : Option (List Char) :=
  match litCI ['b', 'e', 'a', 'r', 'e', 'r'] cs with
  | none => none
  | some r1 =>
    let n := countLeading jsSpace r1
    if n = 0 then none else tokenTail (r1.drop n)

/-- Matcher for `/token[=:]\s*[\w\-._~+\/]+=*\/gi` at the head of `cs`. -/
def matchToken (cs : List Char) : Option (List Char) :=
  match litCI ['t', 'o', 'k', 'e', 'n'] cs with
  | none => none
  | some r1 =>
    match r1 with
    | [] => none
    | c :: r2 =>
      if c = '=' || c = ':' then tokenTail (r2.drop (countLeading jsSpace r2))
      else none

/-- Matcher for `/client[_-]?secret[=:]\s*[\w\-._~+\/]+=*\/gi`. -/
def matchClientSecret (cs : List Char) : Option (List Char) :=
  match litCI ['c', 'l', 'i', 'e', 'n', 't'] cs with
  | none => none
  | some r1 =>
    let r1' := match r1 with
      | c :: r2 => if c = '_' || c = '-' then r2 else r1
      | [] => r1
    match litCI ['s', 'e', 'c', 'r', 'e', 't'] r1' with
    | none => none
    | some r3 =>
      match r3 with
      | [] => none
      | c :: r4 =>
        if c = '=' || c = ':' then tokenTail (r4.drop (countLeading jsSpace r4))
        else none

/-- Matcher for `/authorization:\s*bearer\s+[\w\-._~+\/]+=*\/gi`. -/
def matchAuthBearer (cs : List Char) : Option (List Char) :=
  match litCI ['a', 'u', 't', 'h', 'o', 'r', 'i', 'z', 'a', 't', 'i', 'o', 'n', ':'] cs with
  | none => none
  | some r1 =>
    match litCI ['b', 'e', 'a', 'r', 'e', 'r'] (r1.drop (countLeading jsSpace r1)) with
    | none => none
    | some r2 =>
      let n := countLeading jsSpace r2
      if n = 0 then none else tokenTail (r2.drop n)

/-- One pass of JavaScript `String.replace` with a global regex: scan left
to right, replace each leftmost match, continue after the replacement.
Fuel-indexed; `replaceAll` supplies `cs.length`, which suffices because
every matcher consumes at least one character when it succeeds. -/
def replaceAllAux (m : List Char → Option (List Char)) (marker : List Char) :
    Nat → List Char → List Char
  | 0, cs => cs
  | _ + 1, [] => []
  | fuel + 1, c :: cs =>
    match m (c :: cs) with
    | some rest => marker ++ replaceAllAux m marker fuel rest
    | none => c :: replaceAllAux m marker fuel cs

/-- `s.replace(pattern, marker)` for a global pattern given by matcher `m`. -/
def replaceAll (m : List Char → Option (List Char)) (marker : List Char)
    (cs : List Char) : List Char :=
  replaceAllAux m marker cs.length cs

/-- Whether the pattern given by matcher `m` matches at some position. -/
def hasMatch (m : List Char → Option (List Char)) : List Char → Bool
  | [] => false
  | c :: cs => (m (c :: cs)).isSome || hasMatch m cs

/-- The fixed redaction marker of errors.ts. -/
def redactedMarker : List Char := ['[', 'R', 'E', 'D', 'A', 'C', 'T', 'E', 'D', ']']

/-- `sanitizeErrorMessage` from src/lib/errors.ts, on character lists:
replace each of the four sensitive patterns in order with `[REDACTED]`,
then truncate to 500 characters with an appended `...` if longer. -/
def sanitizeList (cs : List Char) : List Char :=
  let s4 :=
    replaceAll matchAuthBearer redactedMarker
      (replaceAll matchClientSecret redactedMarker
        (replaceAll matchToken redactedMarker
          (replaceAll matchBearer redactedMarker cs)))
  if 500 < s4.length then s4.take 500 ++ ['.', '.', '.'] else s4

/-- `sanitizeErrorMessage` from src/lib/errors.ts. -/
def sanitizeErrorMessage (s : String) : String :=
  ⟨sanitizeList s.data⟩

/-- Whether a string contains an occurrence of one of the four sensitive
patterns of `sanitizeErrorMessage`. -/
def containsSensitive (cs : List Char) : Bool :=
  hasMatch matchBearer cs || hasMatch matchToken cs ||
  hasMatch matchClientSecret cs || hasMatch matchAuthBearer cs

/-! ## Error values and the error normalizer (src/lib/errors.ts)

Thrown JavaScript values are modelled by `ErrVal`: either a non-object
(string, number, null, ...), an instance of `HelpScoutCliError` (message
plus optional statusCode), or a plain object carrying the fields that
`sanitizeApiError` / `handleHelpScoutError` inspect.  JavaScript
truthiness of an optional string is `some s` with `s` non-empty; of an
optional number it is `some n` with `n ≠ 0`; of an optional array it is
presence with non-zero length. -/

/-- Truthiness of an optional string field (`undefined` and `""` are falsy). -/
def truthyStr : Option String → Bool
  | none => false
  | some s => decide (s ≠ "")

/-- JavaScript `a || b` for an optional string field against a string default. -/
def jsOrStr (a : Option String) (b : String) : String :=
  match a with
  | some s => if s = "" then b else s
  | none => b

/-- JavaScript `a || b` for an optional numeric field (`0` is falsy). -/
def jsOrNat (a : Option Nat) (b : Nat) : Nat :=
  match a with
  | some n => if n = 0 then b else n
  | none => b

/-- One entry of `_embedded.errors` in an API error body. -/
structure EmbError where
  path : Option String := none
  message : Option String := none
  rejectedValue : Option String := none
deriving DecidableEq, Repr

/-- The fields of a thrown plain object that errors.ts inspects. -/
structure ErrObj where
  error : Option String := none
  errorDescription : Option String := none
  message : Option String := none
  embeddedErrors : Option (List EmbError) := none
  statusCode : Option Nat := none
deriving DecidableEq, Repr

/-- A thrown JavaScript value, as classified by errors.ts. -/
inductive ErrVal where
  | nonObject
  | cli (message : String) (statusCode : Option Nat)
  | obj (o : ErrObj)
deriving DecidableEq, Repr

/-- The `error` field of the thrown value (a `HelpScoutCliError` has none). -/
def ErrVal.errorField : ErrVal → Option String
  | .obj o => o.error
  | _ => none

/-- The `error_description` field of the thrown value. -/
def ErrVal.errorDescriptionField : ErrVal → Option String
  | .obj o => o.errorDescription
  | _ => none

/-- The `message` field of the thrown value (a `HelpScoutCliError` carries
its `Error.message`). -/
def ErrVal.messageField : ErrVal → Option String
  | .obj o => o.message
  | .cli m _ => some m
  | .nonObject => none

/-- The `_embedded.errors` field of the thrown value. -/
def ErrVal.embeddedField : ErrVal → Option (List EmbError)
  | .obj o => o.embeddedErrors
  | _ => none

/-- The `statusCode` field of the thrown value. -/
def ErrVal.statusCodeField : ErrVal → Option Nat
  | .obj o => o.statusCode
  | .cli _ sc => sc
  | .nonObject => none

/-- Truthiness of `x?.errors?.length` for the embedded error list. -/
def embLenTruthy : Option (List EmbError) → Bool
  | none => false
  | some es => decide (es.length ≠ 0)

/-- `.map(e => e.message || e.path).filter(Boolean).join('; ')` over the
entries of `_embedded.errors`. -/
def joinEmbedded (es : List EmbError) : String :=
  String.intercalate "; "
    ((es.map fun e => if truthyStr e.message then e.message else e.path).filterMap
      fun r => if truthyStr r then r else none)

/-- The canonical `{name, detail}` pair produced by `sanitizeApiError`. -/
structure HelpScoutError where
  name : String
  detail : String
deriving DecidableEq, Repr

/-- `sanitizeApiError` from src/lib/errors.ts: non-objects yield the
default; otherwise the detail is taken from `error_description`, then
`message`, then the joined `_embedded.errors`, defaulting to
`An error occurred`; the name is `error || 'api_error'`; the detail is
passed through `sanitizeErrorMessage`. -/
def sanitizeApiError (v : ErrVal) : HelpScoutError :=
  match v with
  | .nonObject => ⟨"api_error", "An error occurred"⟩
  | _ =>
    let detail :=
      if truthyStr v.errorDescriptionField then v.errorDescriptionField.getD ""
      else if truthyStr v.messageField then v.messageField.getD ""
      else if embLenTruthy v.embeddedField then joinEmbedded (v.embeddedField.getD [])
      else "An error occurred"
    ⟨jsOrStr v.errorField "api_error", sanitizeErrorMessage detail⟩

/-- The fixed `ERROR_STATUS_CODES` table of errors.ts. -/
def errorStatusCodes (name : String) : Option Nat :=
  if name = "bad_request" then some 400
  else if name = "unauthorized" then some 401
  else if name = "forbidden" then some 403
  else if name = "not_found" then some 404
  else if name = "conflict" then some 409
  else if name = "too_many_requests" then some 429
  else if name = "internal_server_error" then some 500
  else if name = "service_unavailable" then some 503
  else none

/-- The advisory note appended for rate-limit errors. -/
def enhanceRateLimitMessage (detail : String) : String :=
  detail ++ "\n\nHelp Scout API limit: 200 requests/minute. Wait a moment and retry."

/-- The canonical `{name, detail, statusCode}` error emitted on failure. -/
structure CanonicalError where
  name : String
  detail : String
  statusCode : Nat
deriving DecidableEq, Repr

/-- `formatErrorResponse` from errors.ts, with `outputJson` + `process.exit`
modelled as returning the emitted canonical error. -/
def formatErrorResponse (name detail : String) (statusCode : Nat) : CanonicalError :=
  ⟨name,
   if name = "too_many_requests" then enhanceRateLimitMessage detail else detail,
   statusCode⟩

/-- `handleHelpScoutError` from errors.ts: classify the thrown value as a
non-object, a `HelpScoutCliError`, an object with a truthy `error` field,
or an opaque object, and emit the canonical error. -/
def handleHelpScoutError (e : ErrVal) : CanonicalError :=
  match e with
  | .nonObject => formatErrorResponse "unknown_error" "An unexpected error occurred" 1
  | .cli m sc => formatErrorResponse "cli_error" (sanitizeErrorMessage m) (jsOrNat sc 1)
  | .obj o =>
    if truthyStr o.error then
      let hsError := sanitizeApiError (.obj o)
      formatErrorResponse hsError.name hsError.detail
        (jsOrNat o.statusCode (jsOrNat (errorStatusCodes hsError.name) 500))
    else
      formatErrorResponse "unknown_error"
        (sanitizeErrorMessage (jsOrStr o.message "An unexpected error occurred"))
        (jsOrNat o.statusCode 1)

/-! Claim-side definitions for C4, written from the claim's wording. -/

/-- C4 claim wording: the result's name is the input's `error` field when
present (truthy) and `api_error` otherwise. -/
def claimName (v : ErrVal) : String :=
  match v with
  | .obj o => if truthyStr o.error then o.error.getD "" else "api_error"
  | _ => "api_error"

/-- C4 claim wording: detail from, in order of preference,
`error_description`, then `message`, then the non-blank message-or-path
values of `_embedded.errors` joined with `; `; a non-object, or an object
providing none of these, yields `An error occurred`. -/
def claimDetail (v : ErrVal) : String :=
  match v with
  | .nonObject => "An error occurred"
  | .cli m _ => if m ≠ "" then m else "An error occurred"
  | .obj o =>
    if truthyStr o.errorDescription then o.errorDescription.getD ""
    else if truthyStr o.message then o.message.getD ""
    else if embLenTruthy o.embeddedErrors then joinEmbedded (o.embeddedErrors.getD [])
    else "An error occurred"

/-! ## Auth session and request executor (HelpScoutClient, src/lib/api-client.ts)

The credential store (`auth`, an external collaborator) is a record of
optional persisted fields; the in-memory token cache is the client's
`accessToken` field.  The OAuth token endpoint and the API endpoint are
modelled by a description of the responses they would give: one outcome
per grant type for the token endpoint, and one response per attempt index
for the API call.  Every function returns, next to its result and the
updated state, the list of network calls it performed.  JSON bodies are
assumed to parse (the `.catch(() => ({}))` fallback of `request` and a
`response.json()` parse failure are not modelled; no claim depends on
them). -/

/-- The persisted credential store (`auth`). -/
structure AuthStore where
  appId : Option String := none
  appSecret : Option String := none
  accessToken : Option String := none
  refreshToken : Option String := none
deriving DecidableEq, Repr

/-- The client: in-memory token cache plus the persisted store it mutates. -/
structure ClientState where
  accessToken : Option String := none
  store : AuthStore
deriving DecidableEq, Repr

/-- A parsed OAuth token-endpoint success body. -/
structure TokenResponse where
  accessTokenValue : String
  refreshTokenValue : Option String := none
deriving DecidableEq, Repr

/-- The outcome of one `fetch` of the token endpoint: a 2xx response with a
parsed token body, a non-2xx response with a parsed error body, or the
fetch itself throwing (network error), carrying the thrown value. -/
inductive FetchOutcome where
  | ok (tok : TokenResponse)
  | httpError (status : Nat) (body : ErrObj)
  | netThrow (e : ErrVal)
deriving DecidableEq, Repr

/-- What the token endpoint would answer for each grant type. -/
structure TokenNet where
  refreshGrantResult : FetchOutcome
  ccGrantResult : FetchOutcome
deriving DecidableEq, Repr

/-- One performed network call: a token-endpoint grant, or an API call
carrying the `retry` flag it was issued with. -/
inductive NetCall where
  | refreshGrant
  | ccGrant
  | api (retryAllowed : Bool)
deriving DecidableEq, Repr

/-- Whether a performed call is an API call (as opposed to a token grant). -/
def NetCall.isApiCall : NetCall → Bool
  | .api _ => true
  | _ => false

/-- `clearToken` from HelpScoutClient: `this.accessToken = null`. -/
def clearToken (st : ClientState) : ClientState :=
  { st with accessToken := none }

/-- The `client_credentials` exchange: the second half of
`refreshAccessToken` (lines 113-131 of api-client.ts).  On success persist
and cache the access token; on a non-2xx response throw the parsed error
body augmented with the HTTP status; a fetch failure propagates. -/
def clientCredentialsGrant (net : TokenNet) (st : ClientState) :
    Except ErrVal String × ClientState × List NetCall :=
  match net.ccGrantResult with
  | .ok tok =>
    (.ok tok.accessTokenValue,
     { accessToken := some tok.accessTokenValue,
       store := { st.store with accessToken := some tok.accessTokenValue } },
     [.ccGrant])
  | .httpError status body =>
    (.error (.obj { body with statusCode := some status }), st, [.ccGrant])
  | .netThrow e => (.error e, st, [.ccGrant])

/-- `refreshAccessToken` from HelpScoutClient.  Missing appId/appSecret
throws a `HelpScoutCliError` with statusCode 401 before any network call;
with a truthy persisted refresh token, a `refresh_token` grant is tried
first, any failure of it (non-2xx or thrown) falling through silently to
the `client_credentials` grant; on refresh success the new access token
(and rotated refresh token, if any) is persisted and cached. -/
def refreshAccessToken (net : TokenNet) (st : ClientState) :
    Except ErrVal String × ClientState × List NetCall :=
  if !(truthyStr st.store.appId && truthyStr st.store.appSecret) then
    (.error (.cli "Not configured. Please run: helpscout auth login" (some 401)), st, [])
  else if truthyStr st.store.refreshToken then
    match net.refreshGrantResult with
    | .ok tok =>
      let store1 := { st.store with accessToken := some tok.accessTokenValue }
      let store2 := if truthyStr tok.refreshTokenValue then
          { store1 with refreshToken := tok.refreshTokenValue } else store1
      (.ok tok.accessTokenValue,
       { accessToken := some tok.accessTokenValue, store := store2 },
       [.refreshGrant])
    | .httpError _ _ =>
      match clientCredentialsGrant net st with
      | (r, st', calls) => (r, st', .refreshGrant :: calls)
    | .netThrow _ =>
      match clientCredentialsGrant net st with
      | (r, st', calls) => (r, st', .refreshGrant :: calls)
  else clientCredentialsGrant net st

/-- `getAccessToken` from HelpScoutClient: cached in-memory token first,
then the persisted token (cached on read), else a full authentication. -/
def getAccessToken (net : TokenNet) (st : ClientState) :
    Except ErrVal String × ClientState × List NetCall :=
  if truthyStr st.accessToken then (.ok (st.accessToken.getD ""), st, [])
  else if truthyStr st.store.accessToken then
    (.ok (st.store.accessToken.getD ""),
     { st with accessToken := st.store.accessToken }, [])
  else refreshAccessToken net st

/-- One response of the API endpoint: HTTP status and parsed JSON body. -/
structure ApiResponse where
  status : Nat
  body : ErrObj := {}
deriving DecidableEq, Repr

/-- The network as seen by `request`: the token endpoint plus the API
response for each attempt index of the (fixed) method/path/params/body. -/
structure Net where
  token : TokenNet
  api : Nat → ApiResponse

/-- `request` specialised to `retry = false` (the re-issued call of the 401
path): a 401 here is not retried and falls through to the non-2xx branch. -/
def requestNoRetry (net : Net) (attempt : Nat) (st : ClientState) :
    Except ErrVal ErrObj × ClientState × List NetCall :=
  match getAccessToken net.token st with
  | (.error e, st1, tcalls) => (.error e, st1, tcalls)
  | (.ok _, st1, tcalls) =>
    let resp := net.api attempt
    let calls := tcalls ++ [.api false]
    if resp.status = 204 then (.ok {}, st1, calls)
    else if !(decide (200 ≤ resp.status) && decide (resp.status ≤ 299)) then
      (.error (.obj { resp.body with statusCode := some resp.status }), st1, calls)
    else (.ok resp.body, st1, calls)

/-- `request` from HelpScoutClient with the default `retry = true`: obtain
a bearer token, issue the call; on a 401 clear the in-memory token
(`this.accessToken = null`, the body of `clearToken`), force a
re-authentication via `refreshAccessToken`, and re-issue the identical
call once with `retry = false`; a 204 yields an empty result; any other
non-2xx throws the parsed body augmented with the status code. -/
def request (net : Net) (st : ClientState) :
    Except ErrVal ErrObj × ClientState × List NetCall :=
  match getAccessToken net.token st with
  | (.error e, st1, tcalls) => (.error e, st1, tcalls)
  | (.ok _, st1, tcalls) =>
    let resp := net.api 0
    if resp.status = 401 then
      match refreshAccessToken net.token (clearToken st1) with
      | (.error e, st3, rcalls) => (.error e, st3, tcalls ++ [.api true] ++ rcalls)
      | (.ok _, st3, rcalls) =>
        match requestNoRetry net 1 st3 with
        | (res, st4, calls2) => (res, st4, tcalls ++ [.api true] ++ rcalls ++ calls2)
    else if resp.status = 204 then (.ok {}, st1, tcalls ++ [.api true])
    else if !(decide (200 ≤ resp.status) && decide (resp.status ≤ 299)) then
      (.error (.obj { resp.body with statusCode := some resp.status }), st1,
       tcalls ++ [.api true])
    else (.ok resp.body, st1, tcalls ++ [.api true])

/-! ## Conversation tags (HelpScoutClient.removeConversationTag) -/

/-- A conversation tag. -/
structure Tag where
  name : String
deriving DecidableEq, Repr

/-- The slice of a conversation used by `removeConversationTag`. -/
structure Conversation where
  tags : Option (List Tag) := none
deriving DecidableEq, Repr

/-- One API operation performed by `removeConversationTag`. -/
inductive TagAction where
  | getConversation (id : Nat)
  | putTags (id : Nat) (tags : List String)
deriving DecidableEq, Repr

/-- `conversation?.tags?.map(t => t.name) || []` (an empty array is truthy
in JavaScript, so the `|| []` fallback fires only when the chain is
undefined). -/
def existingTagNames (conv : Option Conversation) : List String :=
  ((conv.bind Conversation.tags).map fun ts => ts.map Tag.name).getD []

/-- `removeConversationTag` from HelpScoutClient: fetch the conversation,
filter the given tag out of its tag-name list, and PUT the entire
remaining list back; always returns success.  `conv` is the conversation
the GET returned; the performed operations are listed in order. -/
def removeConversationTag (conversationId : Nat) (tag : String)
    (conv : Option Conversation) : Bool × List TagAction :=
  let existingTags := existingTagNames conv
  let newTags := existingTags.filter fun t => t ≠ tag
  (true, [.getConversation conversationId, .putTags conversationId newTags])

/-! ## Conversation summarizer (extractThreadInfo, src/commands/conversations.ts)

`htmlToPlainText` and `buildName` live in lib/output.ts, which is not
among the sources; they are taken as abstract function parameters. -/

/-- A person reference on a thread (`customer` / `createdBy`). -/
structure Person where
  first : Option String := none
  last : Option String := none
  email : Option String := none
deriving DecidableEq, Repr

/-- An embedded conversation thread. -/
structure Thread where
  type : String
  createdAt : Nat
  body : Option String := none
  customer : Option Person := none
  createdBy : Option Person := none
deriving DecidableEq, Repr

/-- Derived participant information. -/
structure ParticipantInfo where
  name : Option String := none
  email : Option String := none
  messageCount : Nat := 0
  firstMessage : Option String := none
deriving DecidableEq, Repr

/-- The customer/user pair returned by `extractThreadInfo`. -/
structure ThreadInfo where
  customer : ParticipantInfo
  user : ParticipantInfo
deriving DecidableEq, Repr

/-- `MAX_MESSAGE_LENGTH` from conversations.ts. -/
def maxMessageLength : Nat := 300

/-- Leading JavaScript whitespace stripped. -/
def trimLeadingWS : List Char → List Char
  | [] => []
  | c :: cs => if jsSpace c then trimLeadingWS cs else c :: cs

/-- JavaScript `String.prototype.trim`: strip whitespace at both ends. -/
def jsTrim (s : String) : String :=
  ⟨(trimLeadingWS ((trimLeadingWS s.data).reverse)).reverse⟩

/-- `truncate` from conversations.ts: text longer than 300 characters is
cut at 300, trimmed and suffixed with an ellipsis. -/
def truncate (text : String) : String :=
  if text.length ≤ maxMessageLength then text
  else jsTrim ⟨text.data.take maxMessageLength⟩ ++ "..."

/-- `buildPersonName` from conversations.ts, over the abstract `buildName`. -/
def buildPersonName (buildName : Option String → Option String → Option String)
    (info : Option Person) : Option String :=
  match info with
  | none => none
  | some p => buildName p.first p.last

/-- JavaScript `a || b` over two optional object references. -/
def jsOrPerson (a b : Option Person) : Option Person :=
  match a with
  | some p => some p
  | none => b

/-- Insert a thread into a createdAt-sorted list, before the first thread
with a greater-or-equal timestamp (preserving the stability of the
JavaScript sort). -/
def insertThread (t : Thread) : List Thread → List Thread
  | [] => [t]
  | u :: us => if t.createdAt ≤ u.createdAt then t :: u :: us else u :: insertThread t us

/-- The stable ascending sort
`[...threads].sort((a, b) => a.createdAt - b.createdAt)`. -/
def sortThreads : List Thread → List Thread
  | [] => []
  | t :: ts => insertThread t (sortThreads ts)

/-- Whether a thread list is already sorted by `createdAt` ascending. -/
def sortedByCreatedAt : List Thread → Bool
  | [] => true
  | [_] => true
  | a :: b :: ts => decide (a.createdAt ≤ b.createdAt) && sortedByCreatedAt (b :: ts)

/-- `extractThreadInfo` from conversations.ts: sort the embedded threads by
creation time, classify them into customer threads (`type 'customer'`)
and staff threads (`type 'message'`), and derive both participants. -/
def extractThreadInfo (htmlToPlainText : String → String)
    (buildName : Option String → Option String → Option String)
    (threads : Option (List Thread)) : ThreadInfo :=
  let ts := threads.getD []
  if ts.isEmpty then ⟨⟨none, none, 0, none⟩, ⟨none, none, 0, none⟩⟩
  else
    let sortedThreads := sortThreads ts
    let customerThreads := sortedThreads.filter fun t => t.type = "customer"
    let userThreads := sortedThreads.filter fun t => t.type = "message"
    let firstCustomerWithBody := customerThreads.find? fun t => truthyStr t.body
    let firstUserWithBody := userThreads.find? fun t => truthyStr t.body
    let mostRecentUserThread := userThreads.getLast?
    let customerSource := jsOrPerson (firstCustomerWithBody.bind Thread.customer)
        (firstCustomerWithBody.bind Thread.createdBy)
    let userSource := mostRecentUserThread.bind Thread.createdBy
    ⟨{ name := buildPersonName buildName customerSource
       email := customerSource.bind Person.email
       messageCount := customerThreads.length
       firstMessage :=
         if truthyStr (firstCustomerWithBody.bind Thread.body) then
           some (truncate (htmlToPlainText ((firstCustomerWithBody.bind Thread.body).getD "")))
         else none },
     { name := buildPersonName buildName userSource
       email := userSource.bind Person.email
       messageCount := userThreads.length
       firstMessage :=
         if truthyStr (firstUserWithBody.bind Thread.body) then
           some (truncate (htmlToPlainText ((firstUserWithBody.bind Thread.body).getD "")))
         else none }⟩

/-- Claim-side selector: the customer identity comes from the first
customer-type thread with a non-empty body, its `customer` field falling
back to its `createdBy` field. -/
def customerIdentitySource (ts : List Thread) : Option Person :=
  let ft := (ts.filter fun t => t.type = "customer").find? fun t => truthyStr t.body
  jsOrPerson (ft.bind Thread.customer) (ft.bind Thread.createdBy)

/-- Claim-side selector: the staff identity comes from the most recent
message-type thread's `createdBy` field. -/
def staffIdentitySource (ts : List Thread) : Option Person :=
  ((ts.filter fun t => t.type = "message").getLast?).bind Thread.createdBy

/-- The customer of the C5 example conversation. -/
def alice : Person := ⟨some "Alice", some "Lee", some "alice@example.com"⟩

/-- The staff author of the C5 example conversation. -/
def bob : Person := ⟨some "Bob", some "Staff", some "bob@example.com"⟩

/-- The C5 example: three customer threads with bodies `""`, `"Hello"`,
`"Follow-up"` (timestamps ascending) and one staff thread `"Thanks!"`. -/
def exampleThreads : List Thread :=
  [⟨"customer", 1, some "", some alice, none⟩,
   ⟨"customer", 2, some "Hello", some alice, none⟩,
   ⟨"customer", 3, some "Follow-up", some alice, none⟩,
   ⟨"message", 4, some "Thanks!", none, some bob⟩]

/-! ## Pagination walker -/

/-- One paged result, as consumed by the pagination walker. -/
structure WalkPage (α : Type) where
  items : List α
  number : Nat
  totalPages : Option Nat

/-- Modelled from the spec: the Pagination Walker (the shared fetch-all
helper behind `listAllConversations`, whose implementation is not among
the sources — only its callers are).  Starting from a given page,
repeatedly invoke the listing function with the page number incremented
by one, concatenating `items`, until the returned page's `number` reaches
its `totalPages`, a `totalPages` of 0 or absent meaning a single implicit
page.  The fuel argument bounds the loop; any fuel at least the reported
`totalPages` is sufficient.  Returns the items and the pages requested,
in order. -/
def walkPagesAux {α : Type} (fetch : Nat → WalkPage α) :
    Nat → Nat → List α × List Nat
  | 0, _ => ([], [])
  | fuel + 1, page =>
    if (fetch page).totalPages.getD 0 = 0 ∨
        (fetch page).totalPages.getD 0 ≤ (fetch page).number then
      ((fetch page).items, [page])
    else
      ((fetch page).items ++ (walkPagesAux fetch fuel (page + 1)).1,
       page :: (walkPagesAux fetch fuel (page + 1)).2)

/-- Modelled from the spec: the walker starts at page 1. -/
def walkPages {α : Type} (fetch : Nat → WalkPage α) (fuel : Nat) :
    List α × List Nat :=
  walkPagesAux fetch fuel 1

/-- The C6 example listing function: three pages of sizes 50, 50, 7 with
`totalPages = 3`. -/
def threePageFetch : Nat → WalkPage Nat := fun p =>
  ⟨List.replicate (if p = 1 then 50 else if p = 2 then 50 else 7) 0, p, some 3⟩

/-! ## Lemmas and claim theorems -/

theorem replaceAllAux_of_no_match (m : List Char → Option (List Char))
    (marker : List Char) :
    ∀ (fuel : Nat) (cs : List Char), cs.length ≤ fuel → hasMatch m cs = false →
      replaceAllAux m marker fuel cs = cs := by
  intro fuel
  induction fuel with
  | zero =>
    intro cs hlen _
    cases cs with
    | nil => rfl
    | cons c cs => simp at hlen
  | succ n ih =>
    intro cs hlen hnm
    cases cs with
    | nil => rfl
    | cons c cs =>
      have hboth := hnm
      unfold hasMatch at hboth
      rw [Bool.or_eq_false_iff] at hboth
      have h1 : m (c :: cs) = none := by
        cases hm : m (c :: cs) with
        | none => rfl
        | some r => rw [hm] at hboth; simp at hboth
      have h2 : hasMatch m cs = false := hboth.2
      unfold replaceAllAux
      rw [h1]
      have : cs.length ≤ n := by
        simp only [List.length_cons] at hlen
        omega
      rw [ih cs this h2]

theorem replaceAll_of_no_match (m : List Char → Option (List Char))
    (marker : List Char) (cs : List Char) (h : hasMatch m cs = false) :
    replaceAll m marker cs = cs :=
  replaceAllAux_of_no_match m marker cs.length cs (Nat.le_refl _) h

theorem replaceAllAux_infix_marker (m : List Char → Option (List Char))
    (marker : List Char) :
    ∀ (fuel : Nat) (cs : List Char), cs.length ≤ fuel → hasMatch m cs = true →
      marker <:+: replaceAllAux m marker fuel cs := by
  intro fuel
  induction fuel with
  | zero =>
    intro cs hlen hm
    cases cs with
    | nil => simp [hasMatch] at hm
    | cons c cs => simp at hlen
  | succ n ih =>
    intro cs hlen hm
    cases cs with
    | nil => simp [hasMatch] at hm
    | cons c cs =>
      unfold replaceAllAux
      cases hmc : m (c :: cs) with
      | some rest => exact (List.prefix_append marker _).isInfix
      | none =>
        have hm2 : hasMatch m cs = true := by
          unfold hasMatch at hm
          rw [hmc] at hm
          simpa using hm
        have hrec : marker <:+: replaceAllAux m marker n cs := by
          refine ih cs ?_ hm2
          simp only [List.length_cons] at hlen
          omega
        exact List.infix_cons hrec

theorem sanitizeList_of_no_sensitive (cs : List Char)
    (h : containsSensitive cs = false) :
    sanitizeList cs = if 500 < cs.length then cs.take 500 ++ ['.', '.', '.'] else cs := by
  unfold containsSensitive at h
  rw [Bool.or_eq_false_iff, Bool.or_eq_false_iff, Bool.or_eq_false_iff] at h
  obtain ⟨⟨⟨h1, h2⟩, h3⟩, h4⟩ := h
  unfold sanitizeList
  rw [replaceAll_of_no_match _ _ _ h1, replaceAll_of_no_match _ _ _ h2,
    replaceAll_of_no_match _ _ _ h3, replaceAll_of_no_match _ _ _ h4]

theorem length_take_of_eq_600 (cs : List Char) (h : cs.length = 600) :
    (cs.take 500).length = 500 := by
  rw [List.length_take, h]
  omega

theorem matchBearer_x (rest : List Char) : matchBearer ('x' :: rest) = none := rfl

theorem matchToken_x (rest : List Char) : matchToken ('x' :: rest) = none := rfl

theorem matchClientSecret_x (rest : List Char) :
    matchClientSecret ('x' :: rest) = none := rfl

theorem matchAuthBearer_x (rest : List Char) :
    matchAuthBearer ('x' :: rest) = none := rfl

theorem hasMatch_replicate_x (m : List Char → Option (List Char))
    (hm : ∀ rest, m ('x' :: rest) = none) :
    ∀ n, hasMatch m (List.replicate n 'x') = false := by
  intro n
  induction n with
  | zero => rfl
  | succ k ih =>
    rw [List.replicate_succ]
    unfold hasMatch
    rw [hm, ih]
    rfl

theorem containsSensitive_replicate_x (n : Nat) :
    containsSensitive (List.replicate n 'x') = false := by
  unfold containsSensitive
  rw [hasMatch_replicate_x _ matchBearer_x, hasMatch_replicate_x _ matchToken_x,
    hasMatch_replicate_x _ matchClientSecret_x,
    hasMatch_replicate_x _ matchAuthBearer_x]
  rfl

/-- C3: `sanitizeErrorMessage` replaces occurrences of the four sensitive
patterns with the fixed redaction marker (the global replacement pass
inserts the marker whenever its pattern matches anywhere, and on the
bearer-header example the whole `Bearer <token>` occurrence is
replaced); a string free of sensitive patterns is truncated to its first
500 characters with the ellipsis marker appended when longer than 500 —
so a 600-character secret-free message yields exactly 503 characters
ending in the marker — and is returned unchanged when it is at most 500
characters long. -/
theorem spec_C3 :
    (∀ cs : List Char, containsSensitive cs = false → cs.length ≤ 500 →
      sanitizeList cs = cs)
    ∧ (∀ cs : List Char, containsSensitive cs = false → cs.length = 600 →
      (sanitizeList cs).length = 503 ∧ (sanitizeList cs).drop 500 = ['.', '.', '.'])
    ∧ sanitizeErrorMessage "Authorization: Bearer abc123token456" =
        "Authorization: [REDACTED]"
    ∧ sanitizeErrorMessage "Conversation not found" = "Conversation not found"
    ∧ (∀ (m : List Char → Option (List Char)) (marker cs : List Char),
        hasMatch m cs = true → marker <:+: replaceAll m marker cs) := by
  refine ⟨?_, ?_, by decide, by decide,
    fun m marker cs hm => replaceAllAux_infix_marker m marker cs.length cs (Nat.le_refl _) hm⟩
  · intro cs h hlen
    rw [sanitizeList_of_no_sensitive cs h, if_neg (by omega)]
  · intro cs h hlen
    rw [sanitizeList_of_no_sensitive cs h, if_pos (by omega)]
    have htake := length_take_of_eq_600 cs hlen
    constructor
    · rw [List.length_append, htake]
      rfl
    · rw [List.drop_left' htake]

/-- Witness for C3 at concrete inputs: a 600-character secret-free message
truncates to 503 characters ending in the ellipsis marker, and a short
pattern-free message is unchanged. -/
theorem clientCredentialsGrant_calls (net : TokenNet) (st : ClientState) :
    (clientCredentialsGrant net st).2.2 = [.ccGrant] := by
  cases h : net.ccGrantResult <;> simp [clientCredentialsGrant, h]

theorem refreshAccessToken_calls_noApi (net : TokenNet) (st : ClientState) :
    ((refreshAccessToken net st).2.2).filter NetCall.isApiCall = [] := by
  unfold refreshAccessToken clientCredentialsGrant
  split_ifs <;>
    cases hr : net.refreshGrantResult <;> cases hc : net.ccGrantResult <;>
      simp [hr, hc, NetCall.isApiCall]

theorem getAccessToken_calls_noApi (net : TokenNet) (st : ClientState) :
    ((getAccessToken net st).2.2).filter NetCall.isApiCall = [] := by
  unfold getAccessToken
  split_ifs <;> first
    | rfl
    | exact refreshAccessToken_calls_noApi net st

theorem clientCredentialsGrant_ok_caches (net : TokenNet) (st : ClientState)
    (t : String) (st' : ClientState) (calls : List NetCall)
    (h : clientCredentialsGrant net st = (.ok t, st', calls)) :
    st'.accessToken = some t := by
  unfold clientCredentialsGrant at h
  cases hc : net.ccGrantResult <;> rw [hc] at h <;> simp [Prod.ext_iff] at h
  obtain ⟨hval, hstate, _⟩ := h
  rw [← hstate, ← hval]

theorem refreshAccessToken_ok_caches (net : TokenNet) (st : ClientState)
    (t : String) (st' : ClientState) (calls : List NetCall)
    (h : refreshAccessToken net st = (.ok t, st', calls)) :
    st'.accessToken = some t := by
  unfold refreshAccessToken at h
  split_ifs at h
  · simp [Prod.ext_iff] at h
  · cases hr : net.refreshGrantResult <;> rw [hr] at h
    · simp [Prod.ext_iff] at h
      obtain ⟨hval, hstate, _⟩ := h
      rw [← hstate, ← hval]
    · rcases hsplit : clientCredentialsGrant net st with ⟨r, st2, calls2⟩
      rw [hsplit] at h
      simp [Prod.ext_iff] at h
      obtain ⟨hval, hstate, _⟩ := h
      rw [← hstate]
      rw [hval] at hsplit
      exact clientCredentialsGrant_ok_caches net st t st2 calls2 hsplit
    · rcases hsplit : clientCredentialsGrant net st with ⟨r, st2, calls2⟩
      rw [hsplit] at h
      simp [Prod.ext_iff] at h
      obtain ⟨hval, hstate, _⟩ := h
      rw [← hstate]
      rw [hval] at hsplit
      exact clientCredentialsGrant_ok_caches net st t st2 calls2 hsplit
  · exact clientCredentialsGrant_ok_caches net st t st' calls h

/-- C7: with appId or appSecret missing, `refreshAccessToken` fails at once
with the `HelpScoutCliError` whose canonical name is `cli_error` and whose
statusCode is 401, telling the operator to run `helpscout auth login`,
and performs no network call. -/
theorem spec_C7 (net : TokenNet) (st : ClientState)
    (h : truthyStr st.store.appId = false ∨ truthyStr st.store.appSecret = false) :
    refreshAccessToken net st =
      (.error (.cli "Not configured. Please run: helpscout auth login" (some 401)), st, [])
    ∧ handleHelpScoutError
        (.cli "Not configured. Please run: helpscout auth login" (some 401)) =
      ⟨"cli_error", "Not configured. Please run: helpscout auth login", 401⟩ := by
  constructor
  · unfold refreshAccessToken
    rcases h with h | h <;> simp [h]
  · decide

/-- Witness for C7: with an empty credential store the authentication
fails locally with the canonical cli_error of status 401 and an empty
call list. -/
theorem spec_C7_witness :
    refreshAccessToken ⟨.netThrow .nonObject, .netThrow .nonObject⟩
        ⟨none, {}⟩ =
      (.error (.cli "Not configured. Please run: helpscout auth login" (some 401)),
       ⟨none, {}⟩, []) :=
  (spec_C7 ⟨.netThrow .nonObject, .netThrow .nonObject⟩ ⟨none, {}⟩ (Or.inl rfl)).1

/-- C9: `clearToken` clears only the in-memory cached access token; every
field of the persisted credential store — in particular the persisted
refresh token — is unchanged (this is also the mutation the 401 retry
path of `request` performs before the forced re-authentication). -/
theorem spec_C9 : ∀ st : ClientState,
    clearToken st = ⟨none, st.store⟩
    ∧ (clearToken st).store.refreshToken = st.store.refreshToken
    ∧ (clearToken st).store = st.store :=
  fun _ => ⟨rfl, rfl, rfl⟩

/-- C2: with appId/appSecret present and a truthy persisted refresh token,
a failing `refresh_token` grant (thrown or non-2xx) is never surfaced:
the whole outcome is that of the `client_credentials` exchange, with
exactly the two grant calls performed in order; and when the
client_credentials response is non-2xx the raised value is its parsed
error body augmented with the HTTP status code. -/
theorem spec_C2 (net : TokenNet) (st : ClientState)
    (hA : truthyStr st.store.appId = true) (hS : truthyStr st.store.appSecret = true)
    (hR : truthyStr st.store.refreshToken = true)
    (hfail : ∀ tok, net.refreshGrantResult ≠ .ok tok) :
    refreshAccessToken net st =
      ((clientCredentialsGrant net st).1, (clientCredentialsGrant net st).2.1,
       .refreshGrant :: (clientCredentialsGrant net st).2.2)
    ∧ (refreshAccessToken net st).2.2 = [.refreshGrant, .ccGrant]
    ∧ (∀ s b, net.ccGrantResult = .httpError s b →
        (refreshAccessToken net st).1 = .error (.obj { b with statusCode := some s }))
    ∧ (∀ tok, net.ccGrantResult = .ok tok →
        (refreshAccessToken net st).1 = .ok tok.accessTokenValue) := by
  have hmain : refreshAccessToken net st =
      ((clientCredentialsGrant net st).1, (clientCredentialsGrant net st).2.1,
       .refreshGrant :: (clientCredentialsGrant net st).2.2) := by
    unfold refreshAccessToken
    rw [hA, hS, hR]
    simp only [Bool.and_self, Bool.not_true, Bool.false_eq_true, if_false, if_true]
    cases hr : net.refreshGrantResult with
    | ok tok => exact absurd hr (hfail tok)
    | httpError s b =>
      rcases hsplit : clientCredentialsGrant net st with ⟨r, st2, calls2⟩
      simp [hsplit]
    | netThrow e =>
      rcases hsplit : clientCredentialsGrant net st with ⟨r, st2, calls2⟩
      simp [hsplit]
  refine ⟨hmain, ?_, ?_, ?_⟩
  · rw [hmain]
    simp [clientCredentialsGrant_calls]
  · intro s b hcc
    rw [hmain]
    simp [clientCredentialsGrant, hcc]
  · intro tok hcc
    rw [hmain]
    simp [clientCredentialsGrant, hcc]

/-- Witness for C2: a store with credentials and a refresh token whose
refresh grant throws falls back to client_credentials; with a failing
client_credentials response the parsed body augmented with the status
code is raised, after exactly the two grant calls. -/
theorem spec_C2_witness :
    (refreshAccessToken
        ⟨.netThrow .nonObject, .httpError 400 { error := some "invalid_client" }⟩
        ⟨none, ⟨some "id", some "sec", none, some "rt"⟩⟩).2.2 =
      [.refreshGrant, .ccGrant]
    ∧ (refreshAccessToken
        ⟨.netThrow .nonObject, .httpError 400 { error := some "invalid_client" }⟩
        ⟨none, ⟨some "id", some "sec", none, some "rt"⟩⟩).1 =
      .error (.obj { error := some "invalid_client", statusCode := some 400 }) :=
  ⟨(spec_C2 _ _ (by decide) (by decide) (by decide) (by intro tok h; cases h)).2.1,
   (spec_C2 _ _ (by decide) (by decide) (by decide) (by intro tok h; cases h)).2.2.1
     400 { error := some "invalid_client" } rfl⟩

/-- C8: `getAccessToken` returns the truthy in-memory cached token with no
network call; otherwise a truthy persisted token is cached and returned
with no network call; only with neither does it authenticate — and with
app credentials present and no tokens at all the first call performs
exactly one `client_credentials` exchange and caches its token, after
which a further call (against any network) performs zero network calls. -/
theorem spec_C8 (net : TokenNet) (st : ClientState) :
    (∀ t, st.accessToken = some t → t ≠ "" → getAccessToken net st = (.ok t, st, []))
    ∧ (∀ t, truthyStr st.accessToken = false → st.store.accessToken = some t → t ≠ "" →
        getAccessToken net st = (.ok t, { st with accessToken := some t }, []))
    ∧ (truthyStr st.accessToken = false → truthyStr st.store.accessToken = false →
        getAccessToken net st = refreshAccessToken net st)
    ∧ (∀ tok, truthyStr st.accessToken = false → truthyStr st.store.accessToken = false →
        truthyStr st.store.refreshToken = false →
        truthyStr st.store.appId = true → truthyStr st.store.appSecret = true →
        net.ccGrantResult = .ok tok → tok.accessTokenValue ≠ "" →
        getAccessToken net st =
          (.ok tok.accessTokenValue,
           ⟨some tok.accessTokenValue,
            { st.store with accessToken := some tok.accessTokenValue }⟩, [.ccGrant])
        ∧ ∀ net2 : TokenNet,
            getAccessToken net2
              ⟨some tok.accessTokenValue,
               { st.store with accessToken := some tok.accessTokenValue }⟩ =
            (.ok tok.accessTokenValue,
             ⟨some tok.accessTokenValue,
              { st.store with accessToken := some tok.accessTokenValue }⟩, [])) := by
  refine ⟨?_, ?_, ?_, ?_⟩
  · intro t ht htne
    unfold getAccessToken
    simp [ht, truthyStr, htne]
  · intro t hcache ht htne
    unfold getAccessToken
    rw [hcache, ht]
    simp [truthyStr, htne]
  · intro hcache hstore
    unfold getAccessToken
    simp [hcache, hstore]
  · intro tok hcache hstore hrt hA hS hcc htne
    constructor
    · unfold getAccessToken refreshAccessToken clientCredentialsGrant
      simp [hcache, hstore, hrt, hA, hS, hcc]
    · intro net2
      unfold getAccessToken
      simp [truthyStr, htne]

/-- Witness for C8: empty token state with client credentials present:
the first call performs exactly the client_credentials exchange and the
second call (over a network that would fail) performs no calls. -/
theorem spec_C8_witness :
    getAccessToken ⟨.netThrow .nonObject, .ok ⟨"T1", none⟩⟩
        ⟨none, ⟨some "id", some "sec", none, none⟩⟩ =
      (.ok "T1", ⟨some "T1", ⟨some "id", some "sec", some "T1", none⟩⟩, [.ccGrant])
    ∧ getAccessToken ⟨.netThrow .nonObject, .netThrow .nonObject⟩
        ⟨some "T1", ⟨some "id", some "sec", some "T1", none⟩⟩ =
      (.ok "T1", ⟨some "T1", ⟨some "id", some "sec", some "T1", none⟩⟩, []) :=
  ⟨((spec_C8 ⟨.netThrow .nonObject, .ok ⟨"T1", none⟩⟩
        ⟨none, ⟨some "id", some "sec", none, none⟩⟩).2.2.2 ⟨"T1", none⟩ rfl rfl rfl
      (by decide) (by decide) rfl (by decide)).1,
   ((spec_C8 ⟨.netThrow .nonObject, .ok ⟨"T1", none⟩⟩
        ⟨none, ⟨some "id", some "sec", none, none⟩⟩).2.2.2 ⟨"T1", none⟩ rfl rfl rfl
      (by decide) (by decide) rfl (by decide)).2
      ⟨.netThrow .nonObject, .netThrow .nonObject⟩⟩

/-- C1: when the first response of a retry-allowed request is a 401 and
the initial token acquisition and the forced re-authentication succeed,
`request` clears the cached token, re-authenticates, and re-issues the
identical call exactly once with the retry flag cleared; a second 401 is
terminal: the parsed error body augmented with statusCode 401 is raised,
and exactly two API attempts are made in total (no third attempt). -/
theorem spec_C1 (net : Net) (st : ClientState) (t : String) (st1 : ClientState)
    (tcalls : List NetCall) (t2 : String) (st3 : ClientState) (rcalls : List NetCall)
    (hga : getAccessToken net.token st = (.ok t, st1, tcalls))
    (h401 : (net.api 0).status = 401)
    (hre : refreshAccessToken net.token (clearToken st1) = (.ok t2, st3, rcalls))
    (ht2 : t2 ≠ "")
    (h401b : (net.api 1).status = 401) :
    request net st =
      (.error (.obj { (net.api 1).body with statusCode := some 401 }), st3,
       tcalls ++ [NetCall.api true] ++ rcalls ++ [NetCall.api false])
    ∧ (tcalls ++ [NetCall.api true] ++ rcalls ++ [NetCall.api false]).filter NetCall.isApiCall =
      [NetCall.api true, NetCall.api false] := by
  have hcache : st3.accessToken = some t2 :=
    refreshAccessToken_ok_caches net.token (clearToken st1) t2 st3 rcalls hre
  have hga2 : getAccessToken net.token st3 = (.ok t2, st3, []) := by
    unfold getAccessToken
    rw [hcache]
    simp [truthyStr, ht2]
  constructor
  · simp only [request, hga, h401, hre, requestNoRetry, hga2, h401b]
    norm_num [List.append_assoc]
  · have hfa : tcalls.filter NetCall.isApiCall = [] := by
      have := getAccessToken_calls_noApi net.token st
      rw [hga] at this
      exact this
    have hfb : rcalls.filter NetCall.isApiCall = [] := by
      have := refreshAccessToken_calls_noApi net.token (clearToken st1)
      rw [hre] at this
      exact this
    simp [List.filter_append, hfa, hfb, NetCall.isApiCall]

/-- Witness for C1: a cached-token session whose API answers 401 on both
attempts and whose client_credentials grant supplies a fresh token:
exactly the calls [api retry, ccGrant, api no-retry] are made and the
error body augmented with status 401 is raised. -/
theorem spec_C1_witness :
    request
        ⟨⟨.netThrow .nonObject, .ok ⟨"T1", none⟩⟩,
         fun _ => ⟨401, { error := some "unauthorized" }⟩⟩
        ⟨some "T0", ⟨some "id", some "sec", none, none⟩⟩ =
      (.error (.obj { error := some "unauthorized", statusCode := some 401 }),
       ⟨some "T1", ⟨some "id", some "sec", some "T1", none⟩⟩,
       [.api true, .ccGrant, .api false]) :=
  (spec_C1
    ⟨⟨.netThrow .nonObject, .ok ⟨"T1", none⟩⟩,
     fun _ => ⟨401, { error := some "unauthorized" }⟩⟩
    ⟨some "T0", ⟨some "id", some "sec", none, none⟩⟩
    "T0" ⟨some "T0", ⟨some "id", some "sec", none, none⟩⟩ []
    "T1" ⟨some "T1", ⟨some "id", some "sec", some "T1", none⟩⟩ [.ccGrant]
    rfl rfl rfl (by decide) rfl).1

theorem jsOrStr_eq_ite (a : Option String) (b : String) :
    jsOrStr a b = if truthyStr a then a.getD "" else b := by
  cases a with
  | none => rfl
  | some s =>
    by_cases h : s = "" <;> simp [jsOrStr, truthyStr, h]

/-- C4: `sanitizeApiError` takes its detail from, in order of preference,
`error_description`, then `message`, then the non-blank message-or-path
values of `_embedded.errors` joined with `; ` (the chosen detail passing
through the secret-redaction of `sanitizeErrorMessage`); the result's
name is the input's truthy `error` field or `api_error`; a non-object, or
an object providing none of these fields, yields the default
`{name: api_error, detail: An error occurred}`. -/
theorem spec_C4 :
    (∀ v : ErrVal, sanitizeApiError v = ⟨claimName v, sanitizeErrorMessage (claimDetail v)⟩)
    ∧ sanitizeApiError (.obj { error := some "unauthorized",
                               errorDescription := some "Invalid client credentials" }) =
        ⟨"unauthorized", "Invalid client credentials"⟩
    ∧ sanitizeApiError (.obj { embeddedErrors := some [⟨some "subject", some "Subject is required", none⟩, ⟨some "body", some "Body is required", none⟩] }) =
        ⟨"api_error", "Subject is required; Body is required"⟩
    ∧ sanitizeApiError (.obj {}) = ⟨"api_error", "An error occurred"⟩
    ∧ sanitizeApiError .nonObject = ⟨"api_error", "An error occurred"⟩ := by
  refine ⟨?_, by decide, by decide, by decide, by decide⟩
  intro v
  cases v with
  | nonObject =>
    show _ = HelpScoutError.mk _ (sanitizeErrorMessage "An error occurred")
    decide
  | cli m sc =>
    by_cases h : m = "" <;>
      simp [sanitizeApiError, claimName, claimDetail, ErrVal.errorDescriptionField,
        ErrVal.messageField, ErrVal.embeddedField, ErrVal.errorField, truthyStr,
        embLenTruthy, jsOrStr, h]
  | obj o =>
    simp only [sanitizeApiError, claimName, claimDetail, ErrVal.errorDescriptionField,
      ErrVal.messageField, ErrVal.embeddedField, ErrVal.errorField, jsOrStr_eq_ite]

theorem spec_C3_witness :
    (sanitizeList (List.replicate 600 'x')).length = 503
    ∧ (sanitizeList (List.replicate 600 'x')).drop 500 = ['.', '.', '.']
    ∧ sanitizeList "ok".data = "ok".data
    ∧ redactedMarker <:+: replaceAll matchBearer redactedMarker "Bearer x".data :=
  ⟨(spec_C3.2.1 _ (containsSensitive_replicate_x 600) (List.length_replicate 600 'x')).1,
   (spec_C3.2.1 _ (containsSensitive_replicate_x 600) (List.length_replicate 600 'x')).2,
   spec_C3.1 _ (by decide) (by decide),
   spec_C3.2.2.2.2 matchBearer redactedMarker "Bearer x".data (by decide)⟩

theorem sortThreads_of_sorted :
    ∀ ts : List Thread, sortedByCreatedAt ts = true → sortThreads ts = ts := by
  intro ts
  induction ts with
  | nil => intro _; rfl
  | cons t ts ih =>
    intro h
    cases ts with
    | nil => rfl
    | cons u us =>
      unfold sortedByCreatedAt at h
      rw [Bool.and_eq_true] at h
      have h1 : t.createdAt ≤ u.createdAt := of_decide_eq_true h.1
      show insertThread t (sortThreads (u :: us)) = t :: u :: us
      rw [ih h.2]
      show (if t.createdAt ≤ u.createdAt then t :: u :: us else u :: insertThread t us) =
        t :: u :: us
      rw [if_pos h1]

/-- C5: for threads already sorted by `createdAt` ascending, the customer
participant is derived from the first customer-type thread with a
non-empty body (its `customer` field falling back to `createdBy`); its
`firstMessage` is that thread's body through `htmlToPlainText` and
`truncate`; its `messageCount` counts all customer-type threads
regardless of body.  The staff identity comes from the most recent
message-type thread's `createdBy`, its `firstMessage` from the first
message-type thread with a non-empty body, its `messageCount` counts all
message-type threads.  On the example conversation (customer bodies "",
"Hello", "Follow-up" and one staff "Thanks!") the customer firstMessage
is the plain-text form of "Hello" with messageCount 3, and the staff
identity is the staff thread's author with messageCount 1. -/
theorem spec_C5 :
    ∀ (htmlToPlainText : String → String)
      (buildName : Option String → Option String → Option String),
    (∀ ts : List Thread, sortedByCreatedAt ts = true → ts ≠ [] →
      (extractThreadInfo htmlToPlainText buildName (some ts)).customer.messageCount =
          (ts.filter fun t => t.type = "customer").length
        ∧ (extractThreadInfo htmlToPlainText buildName (some ts)).user.messageCount =
          (ts.filter fun t => t.type = "message").length
        ∧ (extractThreadInfo htmlToPlainText buildName (some ts)).customer.firstMessage =
          (((ts.filter fun t => t.type = "customer").find? fun t => truthyStr t.body).map
            fun t => truncate (htmlToPlainText (t.body.getD "")))
        ∧ (extractThreadInfo htmlToPlainText buildName (some ts)).user.firstMessage =
          (((ts.filter fun t => t.type = "message").find? fun t => truthyStr t.body).map
            fun t => truncate (htmlToPlainText (t.body.getD "")))
        ∧ (extractThreadInfo htmlToPlainText buildName (some ts)).customer.name =
          buildPersonName buildName (customerIdentitySource ts)
        ∧ (extractThreadInfo htmlToPlainText buildName (some ts)).customer.email =
          (customerIdentitySource ts).bind Person.email
        ∧ (extractThreadInfo htmlToPlainText buildName (some ts)).user.name =
          buildPersonName buildName (staffIdentitySource ts)
        ∧ (extractThreadInfo htmlToPlainText buildName (some ts)).user.email =
          (staffIdentitySource ts).bind Person.email)
    ∧ ((extractThreadInfo htmlToPlainText buildName (some exampleThreads)).customer.firstMessage =
          some (truncate (htmlToPlainText "Hello"))
        ∧ (extractThreadInfo htmlToPlainText buildName
            (some exampleThreads)).customer.messageCount = 3
        ∧ (extractThreadInfo htmlToPlainText buildName (some exampleThreads)).user.name =
          buildName bob.first bob.last
        ∧ (extractThreadInfo htmlToPlainText buildName (some exampleThreads)).user.email =
          bob.email
        ∧ (extractThreadInfo htmlToPlainText buildName
            (some exampleThreads)).user.messageCount = 1) := by
  intro h2t bn
  constructor
  · intro ts hs hne
    have hE : ts.isEmpty = false := by
      cases ts with
      | nil => exact absurd rfl hne
      | cons a as => rfl
    have hsort := sortThreads_of_sorted ts hs
    simp only [extractThreadInfo, Option.getD_some, hE, Bool.false_eq_true, if_false, hsort,
      customerIdentitySource, staffIdentitySource]
    refine ⟨by trivial, by trivial, ?_, ?_, by trivial, by trivial, by trivial, by trivial⟩
    · cases hf : (ts.filter fun t => t.type = "customer").find? fun t => truthyStr t.body with
      | none => simp [hf, truthyStr]
      | some t =>
        have hb : truthyStr t.body = true := by simpa using List.find?_some hf
        simp [hf, hb]
    · cases hf : (ts.filter fun t => t.type = "message").find? fun t => truthyStr t.body with
      | none => simp [hf, truthyStr]
      | some t =>
        have hb : truthyStr t.body = true := by simpa using List.find?_some hf
        simp [hf, hb]
  · exact ⟨rfl, rfl, rfl, rfl, rfl⟩

/-- Witness for C5: the example conversation is sorted and non-empty, and
the sorted-threads characterisation applies to it; the customer
participant counts its three customer threads. -/
theorem spec_C5_witness :
    sortedByCreatedAt exampleThreads = true
    ∧ (extractThreadInfo id (fun a _ => a) (some exampleThreads)).customer.messageCount =
      (exampleThreads.filter fun t => t.type = "customer").length :=
  ⟨by decide, ((spec_C5 id (fun a _ => a)).1 exampleThreads (by decide) (by decide)).1⟩

theorem walkPagesAux_calls_ge {α : Type} (fetch : Nat → WalkPage α) :
    ∀ (fuel page : Nat), ∀ q ∈ (walkPagesAux fetch fuel page).2, page ≤ q := by
  intro fuel
  induction fuel with
  | zero => intro page q hq; simp [walkPagesAux] at hq
  | succ n ih =>
    intro page q hq
    unfold walkPagesAux at hq
    split at hq
    · simp at hq
      omega
    · simp at hq
      rcases hq with hq | hq
      · omega
      · have := ih (page + 1) q hq
        omega

theorem walkPagesAux_calls_nodup {α : Type} (fetch : Nat → WalkPage α) :
    ∀ (fuel page : Nat), ((walkPagesAux fetch fuel page).2).Nodup := by
  intro fuel
  induction fuel with
  | zero => intro page; simp [walkPagesAux]
  | succ n ih =>
    intro page
    unfold walkPagesAux
    split
    · simp
    · simp only [List.nodup_cons]
      refine ⟨fun hmem => ?_, ih (page + 1)⟩
      have := walkPagesAux_calls_ge fetch n (page + 1) page hmem
      omega

/-- C6: the pagination walker starts at page 1 and requests consecutive
pages, concatenating items, stopping when the returned page's number
reaches its totalPages; it requests no page twice (the performed page
list has no duplicates), makes a single call when totalPages is 0 or
absent, and over three pages of sizes [50, 50, 7] with totalPages = 3 it
returns exactly 107 items from exactly the calls [1, 2, 3]. -/
theorem spec_C6 :
    (∀ (α : Type) (fetch : Nat → WalkPage α) (fuel page : Nat), 0 < fuel →
      (fetch page).totalPages.getD 0 = 0 →
      walkPagesAux fetch fuel page = ((fetch page).items, [page]))
    ∧ (∀ (α : Type) (fetch : Nat → WalkPage α) (fuel : Nat),
        ((walkPages fetch fuel).2).Nodup)
    ∧ (walkPages threePageFetch 3).1.length = 107
    ∧ (walkPages threePageFetch 3).2 = [1, 2, 3] := by
  refine ⟨?_, ?_, by decide, by decide⟩
  · intro α fetch fuel page hf h0
    cases fuel with
    | zero => omega
    | succ n =>
      unfold walkPagesAux
      rw [if_pos (Or.inl h0)]
  · intro α fetch fuel
    exact walkPagesAux_calls_nodup fetch fuel 1

/-- Witness for C6: a listing function reporting no totalPages yields its
single page's items from the single call [1]. -/
theorem spec_C6_witness :
    walkPagesAux (fun _ => WalkPage.mk [7] 1 none) 5 1 = ([7], [1]) :=
  spec_C6.1 Nat (fun _ => WalkPage.mk [7] 1 none) 5 1 (by omega) rfl

/-- C10: `removeConversationTag` fetches the conversation, filters every
occurrence of the tag out of its tag-name list, and PUTs the entire
remaining list back, succeeding unconditionally; removing a tag that is
not present re-writes the unchanged tag list rather than failing. -/
theorem spec_C10 : ∀ (conv : Option Conversation) (conversationId : Nat) (tag : String),
    removeConversationTag conversationId tag conv =
      (true, [.getConversation conversationId,
              .putTags conversationId ((existingTagNames conv).filter fun t => t ≠ tag)])
    ∧ (tag ∉ existingTagNames conv →
        removeConversationTag conversationId tag conv =
          (true, [.getConversation conversationId,
                  .putTags conversationId (existingTagNames conv)])) := by
  intro conv conversationId tag
  constructor
  · rfl
  · intro h
    have hfix : (existingTagNames conv).filter (fun t => t ≠ tag) = existingTagNames conv := by
      apply List.filter_eq_self.mpr
      intro a ha
      rcases eq_or_ne a tag with he | hne
      · exact absurd (he ▸ ha) h
      · simp [hne]
    rw [← hfix]
    rfl

/-- Witness for C10: removing the absent tag "b" from a conversation
tagged only "a" still succeeds and re-writes the unchanged list ["a"]. -/
theorem spec_C10_witness :
    removeConversationTag 5 "b" (some ⟨some [⟨"a"⟩]⟩) =
      (true, [.getConversation 5, .putTags 5 ["a"]]) :=
  (spec_C10 (some ⟨some [⟨"a"⟩]⟩) 5 "b").2 (by decide)

end Helpscout
